import Mathlib

/-!
# Verification of bt-dualboot-rs credential extraction and recoding

A shallow embedding of the credential codec and merge logic of the
`bt-dualboot-rs` repository.  Rust strings are modelled as `List Char`
(the sources only ever handle ASCII data), byte values as `Nat` (with
explicit `< 256` bounds where relevant), and fallible code — every
`panic!` / `.expect(...)` in the sources — as `Option` (`none` models a
panic, which aborts the enclosing computation).
-/

set_option autoImplicit false

namespace BtDualBoot

/-- Rust `&str` / `String` values, modelled as lists of characters. -/
abbrev Str := List Char

/-! ## Digit and number parsing

`u8::from_str_radix`, `u32::from_str_radix`, `u64::from_str_radix` from the
Rust standard library, restricted to the digit alphabet (the optional
leading `+` sign accepted by Rust never occurs in any of the registry
grammars handled by this program, so it is not modelled). -/

/-- The numeric value of one hexadecimal digit character (`0-9`, `a-f`,
`A-F`), as computed by `char::to_digit` inside `from_str_radix`. -/
def hexDigitVal (c : Char) : Option Nat :=
  if 48 ≤ c.toNat ∧ c.toNat ≤ 57 then some (c.toNat - 48)
  else if 97 ≤ c.toNat ∧ c.toNat ≤ 102 then some (c.toNat - 87)
  else if 65 ≤ c.toNat ∧ c.toNat ≤ 70 then some (c.toNat - 55)
  else none

/-- Digit value in a given radix (radix ≤ 16): the hex digit value, rejected
when it is not below the radix. -/
def digitVal (radix : Nat) (c : Char) : Option Nat :=
  match hexDigitVal c with
  | some v => if v < radix then some v else none
  | none => none

/-- `uN::from_str_radix(s, radix)`: fails on an empty string, on any
non-digit character, and on overflow past `bound` (= `2^N`). -/
def fromStrRadix (radix bound : Nat) (s : Str) : Option Nat :=
  if s.isEmpty then none
  else
    (s.mapM (digitVal radix)).bind fun ds =>
      let v := ds.foldl (fun a d => a * radix + d) 0
      if v < bound then some v else none

/-! ## Field Codec: Windows registry string forms → canonical bytes

Embeds `win_reged_helpers` and the `From` conversions of
`src/bt_device/win_bt_device.rs`. -/

/-- `win_reged_helpers::hex_to_bytes`:
`"hex:c2,90,...,d5" -> [u8; 16]`.  Slices off the 4-character prefix
(panicking if the string is shorter), splits on `,`, parses each part as a
hex byte, and requires exactly 16 bytes. -/
def hex_to_bytes (hex : Str) : Option (List Nat) :=
  if hex.length < 4 then none
  else
    (((hex.drop 4).splitOn ',').mapM (fromStrRadix 16 256)).bind fun bytes =>
      if bytes.length = 16 then some bytes else none

/-- `win_reged_helpers::hex_b_to_bytes`:
`"hex(b):00,...,00" -> [u8; 8]`.  Slices off the 7-character prefix, splits
on `,`, parses hex bytes, and requires exactly 8 bytes. -/
def hex_b_to_bytes (hex : Str) : Option (List Nat) :=
  if hex.length < 7 then none
  else
    (((hex.drop 7).splitOn ',').mapM (fromStrRadix 16 256)).bind fun bytes =>
      if bytes.length = 8 then some bytes else none

/-- `u32::to_ne_bytes` on the (little-endian) host platforms this program
targets: the four bytes of `n`, least significant first. -/
def u32_to_ne_bytes (n : Nat) : List Nat :=
  [n % 256, n / 256 % 256, n / 65536 % 256, n / 16777216 % 256]

/-- `win_reged_helpers::dword_to_bytes`:
`u32::from_str_radix(&dword[6..], 10)` — the payload after the 6-character
offset is parsed as a **decimal** integer — then `to_ne_bytes`. -/
def dword_to_bytes (dword : Str) : Option (List Nat) :=
  if dword.length < 6 then none
  else (fromStrRadix 10 4294967296 (dword.drop 6)).map u32_to_ne_bytes

/-- Consecutive 2-element chunks of a list, dropping a trailing leftover
element: `chunks_exact(2)` on an ASCII string. -/
def chunksExact2 : Str → List Str
  | c1 :: c2 :: rest => [c1, c2] :: chunksExact2 rest
  | _ => []

/-- `From<KeyAddress> for uni_bt_device::Address`:
`"c0fbf9601c13" -> [u8; 6]`.  Parses consecutive 2-character chunks as hex
bytes, in the given order, and requires exactly 6 of them. -/
def key_address_to_bytes (s : Str) : Option (List Nat) :=
  ((chunksExact2 s).mapM (fromStrRadix 16 256)).bind fun bytes =>
    if bytes.length = 6 then some bytes else none

/-- `From<Address> for uni_bt_device::Address` (win_bt_device.rs):
`"hex(b):c1,f4,11,0a,29,c8,00,00" -> [u8; 6]` via `hex_b_to_bytes`, then
`.rev().skip(2)` and a length-6 conversion. -/
def win_address_to_bytes (s : Str) : Option (List Nat) :=
  (hex_b_to_bytes s).bind fun bs =>
    let r := bs.reverse.drop 2
    if r.length = 6 then some r else none

/-! ## Field Codec: canonical bytes → Linux textual forms

Embeds `linux_bt_helpers` of `src/bt_device/linux_bt_device.rs`. -/

/-- The lowercase hexadecimal digit character for `n < 16`. -/
def lowerHexDigitChar (n : Nat) : Char :=
  if n < 10 then Char.ofNat (48 + n) else Char.ofNat (87 + n)

/-- `format!("{:02x}", b)` for a byte value: exactly two lowercase hex
digits. -/
def formatHex02x (b : Nat) : Str :=
  [lowerHexDigitChar (b / 16 % 16), lowerHexDigitChar (b % 16)]

/-- `linux_bt_helpers::bytes_to_linux_hex_key`: each byte rendered as
`{:02x}` then uppercased, all concatenated with no separator. -/
def bytes_to_linux_hex_key (bytes : List Nat) : Str :=
  (bytes.map fun b => (formatHex02x b).map Char.toUpper).flatten

/-- `linux_bt_helpers::bytes_to_linux_hex_address`: uppercase hex byte
pairs joined with `:`. -/
def bytes_to_linux_hex_address (bytes : List Nat) : Str :=
  List.intercalate [':'] (bytes.map fun b => (formatHex02x b).map Char.toUpper)

/-! ## Legacy string-based Linux formats

Embeds the `LinuxDataFormat` impls of `src/win_device.rs`, which transform
the raw Windows registry strings directly (without an intermediate byte
decode).  Every `self.0[k..]` byte-slice panics when the string is shorter
than `k`, hence the `Option`. -/

/-- `Ltk::get_linux_format` — and the byte-identical
`Irk::get_linux_format` and `Csrk::get_linux_format`: drop the
4-character `hex:` offset, uppercase, remove the commas. -/
def winhex_get_linux_format (s : Str) : Option Str :=
  if s.length < 4 then none
  else some (((s.drop 4).map Char.toUpper).filter fun c => c ≠ ',')

/-- `ERand::get_linux_format`: drop the 7-character `hex(b):` offset,
remove commas, parse as a hexadecimal `u64`, render in decimal. -/
def erand_get_linux_format (s : Str) : Option Str :=
  if s.length < 7 then none
  else
    (fromStrRadix 16 18446744073709551616 ((s.drop 7).filter fun c => c ≠ ',')).map
      fun n => (Nat.repr n).toList

/-- `EDiv::get_linux_format`: drop the 6-character `dword:` offset and keep
the digits as they are. -/
def ediv_get_linux_format (s : Str) : Option Str :=
  if s.length < 6 then none else some (s.drop 6)

/-- `WinMac::get_linux_format` (`src/win_device.rs`): uppercase the
12-hex-character adapter address and join consecutive character pairs with
`:` (a trailing unpaired character would be dropped by the fold). -/
def winmac_get_linux_format (s : Str) : Str :=
  List.intercalate [':'] (chunksExact2 (s.map Char.toUpper))

/-- `Address::get_linux_format` (`src/win_device.rs`): drop the
7-character `hex(b):` offset, uppercase, split on `,`, take the first 6
parts, reverse them data and join with `:`. -/
def winaddr_get_linux_format (s : Str) : Option Str :=
  if s.length < 7 then none
  else some (List.intercalate [':']
    ((((s.drop 7).map Char.toUpper).splitOn ',').take 6).reverse)

/-! ## Linux Pairing Record data model

Embeds the sectioned `info` file structure, which appears twice in the
sources with identical shape: `LinuxInfo` in `src/linux_device.rs` and
`BtDevice` in `src/bt_device/linux_bt_device.rs`. -/

/-- The `[General]` section. -/
structure GeneralSec where
  name : Str
  appearance : Option Str
  address_type : Str
  supported_technologies : Str
  trusted : Str
  blocked : Str
  wake_allowed : Option Str
  services : Str
  deriving DecidableEq

/-- The `[DeviceID]` section. -/
structure DeviceIdSec where
  source : Str
  vendor : Str
  product : Str
  version : Str
  deriving DecidableEq

/-- The `[ConnectionParameters]` section. -/
structure ConnectionParametersSec where
  min_interval : Str
  max_interval : Str
  latency : Str
  timeout : Str
  deriving DecidableEq

/-- The `[LinkKey]` section.  `ty` models the raw field `Type` (spelled
`r#type` in the sources). -/
structure LinkKeySec where
  key : Str
  ty : Str
  pin_length : Str
  deriving DecidableEq

/-- The `[IdentityResolvingKey]` section. -/
structure IdentityResolvingKeySec where
  key : Str
  deriving DecidableEq

/-- The `[SlaveLongTermKey]` section. -/
structure SlaveLongTermKeySec where
  key : Str
  authenticated : Str
  enc_size : Str
  e_div : Str
  rand : Str
  deriving DecidableEq

/-- The `[PeripheralLongTermKey]` section. -/
structure PeripheralLongTermKeySec where
  key : Str
  authenticated : Str
  enc_size : Str
  e_div : Str
  rand : Str
  deriving DecidableEq

/-- The `[LocalSignatureKey]` section. -/
structure LocalSignatureKeySec where
  key : Str
  deriving DecidableEq

/-- The `[LongTermKey]` section. -/
structure LongTermKeySec where
  key : Str
  authenticated : Str
  enc_size : Str
  e_div : Str
  rand : Str
  deriving DecidableEq

/-- The whole per-device Linux pairing record: nine optional sections. -/
structure LinuxInfo where
  general : Option GeneralSec
  device_id : Option DeviceIdSec
  connection_parameters : Option ConnectionParametersSec
  link_key : Option LinkKeySec
  identity_resolving_key : Option IdentityResolvingKeySec
  slave_long_term_key : Option SlaveLongTermKeySec
  peripheral_long_term_key : Option PeripheralLongTermKeySec
  local_signature_key : Option LocalSignatureKeySec
  long_term_key : Option LongTermKeySec
  deriving DecidableEq

/-! ## Linux Record Merger, string-based path

Embeds the `recreate` methods of `src/linux_device.rs` and the per-device
body of `update_linux_devices` in `src/main.rs`. -/

/-- `LinkKey::recreate`: `Key` from the LTK's Linux format, `Type` and
`PINLength` cloned from the existing section. -/
def LinkKeySec.recreate (self : LinkKeySec) (ltk : Str) : Option LinkKeySec :=
  (winhex_get_linux_format ltk).map fun k =>
    { key := k, ty := self.ty, pin_length := self.pin_length }

/-- `IdentityResolvingKey::recreate`. -/
def IdentityResolvingKeySec.recreate (_self : IdentityResolvingKeySec) (irk : Str) :
    Option IdentityResolvingKeySec :=
  (winhex_get_linux_format irk).map fun k => { key := k }

/-- `SlaveLongTermKey::recreate`: `Key` replaced, the four auxiliary fields
cloned from the existing section. -/
def SlaveLongTermKeySec.recreate (self : SlaveLongTermKeySec) (ltk : Str) :
    Option SlaveLongTermKeySec :=
  (winhex_get_linux_format ltk).map fun k =>
    { key := k, authenticated := self.authenticated, enc_size := self.enc_size,
      e_div := self.e_div, rand := self.rand }

/-- `PeripheralLongTermKey::recreate`: `Key` replaced, the four auxiliary
fields cloned from the existing section. -/
def PeripheralLongTermKeySec.recreate (self : PeripheralLongTermKeySec) (ltk : Str) :
    Option PeripheralLongTermKeySec :=
  (winhex_get_linux_format ltk).map fun k =>
    { key := k, authenticated := self.authenticated, enc_size := self.enc_size,
      e_div := self.e_div, rand := self.rand }

/-- `LocalSignatureKey::recreate`. -/
def LocalSignatureKeySec.recreate (_self : LocalSignatureKeySec) (csrk : Str) :
    Option LocalSignatureKeySec :=
  (winhex_get_linux_format csrk).map fun k => { key := k }

/-- `LongTermKey::recreate` (`src/linux_device.rs`, lines 210-220).  Field
for field as in the source — in particular `enc_size` is assigned
`self.authenticated.clone()` there, not `self.enc_size.clone()`. -/
def LongTermKeySec.recreate (self : LongTermKeySec) (ltk e_rand e_div : Str) :
    Option LongTermKeySec := do
  let key ← winhex_get_linux_format ltk
  let ed ← ediv_get_linux_format e_div
  let rd ← erand_get_linux_format e_rand
  pure { key := key, authenticated := self.authenticated, enc_size := self.authenticated,
         e_div := ed, rand := rd }

/-- The raw per-device field set read from the Windows registry export
(`WinInfo` in `src/win_device.rs`): raw encoded strings, `LTK` and
`Address` mandatory. -/
structure WinInfo where
  auth_req : Option Str
  e_rand : Option Str
  ltk : Str
  key_length : Option Str
  e_div : Option Str
  address_type : Option Str
  address : Str
  master_irk_status : Option Str
  irk : Option Str
  csrk : Option Str
  deriving DecidableEq

/-- The per-device merge body of `update_linux_devices` (`src/main.rs`,
lines 311-355): each present section is recreated, the key-material
sections conditionally on the corresponding Windows field being present.
The source mutates the record section by section with `mem::replace`;
the sequential `let` chain reproduces those updates in order. -/
def update_linux_info (info : LinuxInfo) (win : WinInfo) : Option LinuxInfo := do
  let link_key ← match info.link_key with
    | some sec => (sec.recreate win.ltk).map some
    | none => pure none
  let identity_resolving_key ← match info.identity_resolving_key, win.irk with
    | some sec, some irk => (sec.recreate irk).map some
    | s, _ => pure s
  let peripheral_long_term_key ← match info.peripheral_long_term_key with
    | some sec => (sec.recreate win.ltk).map some
    | none => pure none
  let slave_long_term_key ← match info.slave_long_term_key with
    | some sec => (sec.recreate win.ltk).map some
    | none => pure none
  let local_signature_key ← match info.local_signature_key, win.csrk with
    | some sec, some csrk => (sec.recreate csrk).map some
    | s, _ => pure s
  let long_term_key ← match info.long_term_key, win.e_rand, win.e_div with
    | some sec, some e_rand, some e_div => (sec.recreate win.ltk e_rand e_div).map some
    | s, _, _ => pure s
  pure { info with
         link_key := link_key,
         identity_resolving_key := identity_resolving_key,
         peripheral_long_term_key := peripheral_long_term_key,
         slave_long_term_key := slave_long_term_key,
         local_signature_key := local_signature_key,
         long_term_key := long_term_key }

/-! ## Canonical Device Record and the byte-based paths

Embeds `src/bt_device/uni_bt_device.rs`, the builder of
`src/bt_device/win_bt_device.rs` and the merger of
`src/bt_device/linux_bt_device.rs`. -/

/-- `uni_bt_device::UniBtDevice` — the Canonical Device Record.  Byte
widths (6/6/16/8/4/16/16) are enforced by the decoders producing the
fields. -/
structure UniBtDevice where
  address : List Nat
  parent_address : List Nat
  ltk : List Nat
  e_rand : Option (List Nat)
  e_div : Option (List Nat)
  irk : Option (List Nat)
  csrk : Option (List Nat)
  deriving DecidableEq

/-- The raw Bluetooth 5.1 field set (`BtDevice51` in
`src/bt_device/win_bt_device.rs`): raw encoded strings as deserialized,
before any byte decode. -/
structure BtDevice51 where
  auth_req : Str
  e_rand : Str
  ltk : Str
  key_length : Str
  e_div : Str
  address_type : Option Str
  address : Str
  master_irk_status : Option Str
  irk : Option Str
  csrk : Option Str
  deriving DecidableEq

/-- `win_bt_device::BtDeviceBuilder::build` for the extended (Bluetooth
5.1) shape: builder constructed with `parent_address` and `entries51`.
Each `From` conversion's `expect` panic is `none`; the field decodes run
in the order the source evaluates them (parent address, address, LTK,
ERand, EDIV, IRK, CSRK). -/
def win_build51 (parent_address : Str) (e : BtDevice51) : Option UniBtDevice := do
  let pa ← key_address_to_bytes parent_address
  let addr ← win_address_to_bytes e.address
  let ltk ← hex_to_bytes e.ltk
  let er ← hex_b_to_bytes e.e_rand
  let ed ← dword_to_bytes e.e_div
  let irk ← match e.irk with
    | some s => (hex_to_bytes s).map some
    | none => pure none
  let csrk ← match e.csrk with
    | some s => (hex_to_bytes s).map some
    | none => pure none
  pure { address := addr, parent_address := pa, ltk := ltk,
         e_rand := some er, e_div := some ed, irk := irk, csrk := csrk }

/-- Assembling one Canonical Device Record per raw entry, as the
`map`/`collect` pipeline of `get_win_devices` (`src/main.rs`) does: a
panic while decoding any entry aborts the whole iteration. -/
def buildAll (entries : List (Str × BtDevice51)) : Option (List UniBtDevice) :=
  entries.mapM fun pe => win_build51 pe.1 pe.2

/-- `linux_bt_device::BtDeviceBuilder::build` (`src/bt_device/linux_bt_device.rs`,
lines 56-134): merge decoded key material into an existing record.  The
source mutates one section after the other with `mem::replace`; each
`let` step reproduces one `if let` block, in source order. -/
def linux_build (device : LinuxInfo) (ltk : List Nat)
    (e_rand e_div irk csrk : Option (List Nat)) : LinuxInfo :=
  let d1 := match device.link_key with
    | some link_key =>
        let new_link_key : LinkKeySec :=
          { key := bytes_to_linux_hex_key ltk, ty := link_key.ty,
            pin_length := link_key.pin_length }
        { device with link_key := some new_link_key }
    | none => device
  let d2 := match d1.identity_resolving_key, irk with
    | some _, some k =>
        let new_irk : IdentityResolvingKeySec := { key := bytes_to_linux_hex_key k }
        { d1 with identity_resolving_key := some new_irk }
    | _, _ => d1
  let d3 := match d2.peripheral_long_term_key with
    | some sec =>
        let new_pltk : PeripheralLongTermKeySec :=
          { key := bytes_to_linux_hex_key ltk, authenticated := sec.authenticated,
            enc_size := sec.enc_size, e_div := sec.e_div, rand := sec.rand }
        { d2 with peripheral_long_term_key := some new_pltk }
    | none => d2
  let d4 := match d3.slave_long_term_key with
    | some sec =>
        let new_sltk : SlaveLongTermKeySec :=
          { key := bytes_to_linux_hex_key ltk, authenticated := sec.authenticated,
            enc_size := sec.enc_size, e_div := sec.e_div, rand := sec.rand }
        { d3 with slave_long_term_key := some new_sltk }
    | none => d3
  let d5 := match d4.local_signature_key, csrk with
    | some _, some k =>
        let new_lsk : LocalSignatureKeySec := { key := bytes_to_linux_hex_key k }
        { d4 with local_signature_key := some new_lsk }
    | _, _ => d4
  let d6 := match d5.long_term_key, e_rand, e_div with
    | some sec, some er, some ed =>
        let new_ltk : LongTermKeySec :=
          { key := bytes_to_linux_hex_key ltk, authenticated := sec.authenticated,
            enc_size := sec.enc_size, e_div := bytes_to_linux_hex_key ed,
            rand := bytes_to_linux_hex_key er }
        { d5 with long_term_key := some new_ltk }
    | _, _, _ => d5
  d6

/-! ## Locating and rewriting the Linux records

Embeds the filesystem-facing skeleton of `update_linux_devices`
(`src/main.rs`, lines 283-366).  The filesystem is a parameter: a path
existence predicate and a reader for the parsed `info` file. -/

/-- One device extracted from the Windows export in `src/main.rs`:
its raw field set plus the adapter address recovered from the registry
path (`WinDevice` with `WinMeta`/`WinMac`). -/
structure WinDevice where
  info : WinInfo
  adapter_mac : Str
  deriving DecidableEq

/-- `LINUX_BT_DIR`. -/
def linux_bt_dir : Str := "/var/lib/bluetooth".toList

/-- `Path::join` for the path components used here. -/
def pathJoin (p q : Str) : Str := p ++ '/' :: q

/-- The per-device Linux record directory:
`LINUX_BT_DIR / adapter-address / device-address`. -/
def device_path (d : WinDevice) : Option Str :=
  (winaddr_get_linux_format d.info.address).map fun dev =>
    pathJoin (pathJoin linux_bt_dir (winmac_get_linux_format d.adapter_mac)) dev

/-- `update_linux_devices` (`src/main.rs`): for each device compute its
record directory, drop it (with a warning, not modelled) when the
directory does not exist, otherwise read and merge its `info` file.  The
fused iterator chain processes one device end-to-end before the next, so
the whole run is a fold; the result is the list of performed writes
(path of the rewritten `info` file and its new parsed content).

`update_step` is the processing of one device: locate its record
directory, skip it when absent, otherwise read the `info` file, merge and
record the write; `update_linux_devices` folds it over the device list. -/
def update_step (fsExists : Str → Bool) (readInfo : Str → Option LinuxInfo)
    (acc : List (Str × LinuxInfo)) (d : WinDevice) : Option (List (Str × LinuxInfo)) := do
  let p ← device_path d
  if fsExists p then do
    let info ← readInfo (pathJoin p "info".toList)
    let out ← update_linux_info info d.info
    pure (acc ++ [(pathJoin p "info".toList, out)])
  else
    pure acc

def update_linux_devices (fsExists : Str → Bool) (readInfo : Str → Option LinuxInfo)
    (devs : List WinDevice) : Option (List (Str × LinuxInfo)) :=
  devs.foldlM (update_step fsExists readInfo) []

/-! ## Grammar of well-formed Windows hex strings

Specification-side descriptions of the input shapes the claims quantify
over: comma-separated lists of two-hex-digit byte renderings. -/

/-- A pair of characters that are both hexadecimal digits. -/
def isHexPair (p : Char × Char) : Prop :=
  (hexDigitVal p.1).isSome ∧ (hexDigitVal p.2).isSome

instance (p : Char × Char) : Decidable (isHexPair p) := by
  unfold isHexPair; infer_instance

/-- The byte value denoted by a two-hex-digit pair. -/
def hexPairVal (p : Char × Char) : Nat :=
  16 * (hexDigitVal p.1).getD 0 + (hexDigitVal p.2).getD 0

/-- The two-character chunk of a digit pair. -/
def pairChunk (p : Char × Char) : Str := [p.1, p.2]

/-- A well-formed Windows `hex:` string: the prefix followed by the
comma-separated digit pairs. -/
def winHexKeyStr (pairs : List (Char × Char)) : Str :=
  'h' :: 'e' :: 'x' :: ':' :: List.intercalate [','] (pairs.map pairChunk)

/-- A decimal (ASCII) digit character. -/
def isDecDigit (c : Char) : Prop := 48 ≤ c.toNat ∧ c.toNat ≤ 57

instance (c : Char) : Decidable (isDecDigit c) := by
  unfold isDecDigit; infer_instance

/-- The value of a decimal digit string, most significant digit first. -/
def decDigitsVal (s : Str) : Nat :=
  s.foldl (fun a c => a * 10 + (c.toNat - 48)) 0

/-! ## Concrete fixtures

Registry values taken from the documentation examples in the sources,
used as concrete inputs for evaluations. -/

/-- The LTK example string from the sources. -/
def winLtkStrEx : Str := "hex:c2,90,19,3b,1e,be,c7,d0,18,c6,4f,e9,67,ad,6b,d5".toList

/-- An `ERand` value. -/
def winERandStrEx : Str := "hex(b):00,00,00,00,00,00,00,00".toList

/-- An `EDIV` value. -/
def winEDivStrEx : Str := "dword:00000000".toList

/-- A Windows `Address` value. -/
def winAddrStrEx : Str := "hex(b):c1,f4,11,0a,29,c8,00,00".toList

/-- An existing Linux `[LongTermKey]` section with distinct
`Authenticated` and `EncSize` values. -/
def ltkSecEx : LongTermKeySec :=
  { key := "128515400334819AA35B2D6C010BCEB1".toList,
    authenticated := "2".toList, enc_size := "16".toList,
    e_div := "0".toList, rand := "0".toList }

/-- A Linux record holding only the `[LongTermKey]` section above. -/
def linuxInfoEx : LinuxInfo :=
  { general := none, device_id := none, connection_parameters := none,
    link_key := none, identity_resolving_key := none,
    slave_long_term_key := none, peripheral_long_term_key := none,
    local_signature_key := none, long_term_key := some ltkSecEx }

/-- A Linux record with no sections at all. -/
def infoEmptyEx : LinuxInfo :=
  { general := none, device_id := none, connection_parameters := none,
    link_key := none, identity_resolving_key := none,
    slave_long_term_key := none, peripheral_long_term_key := none,
    local_signature_key := none, long_term_key := none }

/-- A Windows field set supplying LTK, ERand and EDIV. -/
def winInfoEx : WinInfo :=
  { auth_req := none, e_rand := some winERandStrEx, ltk := winLtkStrEx,
    key_length := none, e_div := some winEDivStrEx, address_type := none,
    address := winAddrStrEx, master_irk_status := none,
    irk := none, csrk := none }

/-- A well-formed Bluetooth 5.1 registry entry. -/
def goodEntry51 : BtDevice51 :=
  { auth_req := "dword:0000002d".toList, e_rand := winERandStrEx,
    ltk := winLtkStrEx, key_length := "dword:00000000".toList,
    e_div := winEDivStrEx, address_type := none, address := winAddrStrEx,
    master_irk_status := none, irk := none, csrk := none }

/-- The same entry with one malformed hex digit in its LTK. -/
def badEntry51 : BtDevice51 :=
  { goodEntry51 with
    ltk := "hex:zz,90,19,3b,1e,be,c7,d0,18,c6,4f,e9,67,ad,6b,d5".toList }

/-- A 12-hex-character adapter address. -/
def adapterMacEx : Str := "c0fbf9601c13".toList

/-- The digit pairs of the LTK example. -/
def c5PairsEx : List (Char × Char) :=
  [('c', '2'), ('9', '0'), ('1', '9'), ('3', 'b'), ('1', 'e'), ('b', 'e'),
   ('c', '7'), ('d', '0'), ('1', '8'), ('c', '6'), ('4', 'f'), ('e', '9'),
   ('6', '7'), ('a', 'd'), ('6', 'b'), ('d', '5')]

/-- The digit pairs of the compact legacy address example. -/
def c6PairsEx : List (Char × Char) :=
  [('c', '0'), ('f', 'b'), ('f', '9'), ('6', '0'), ('1', 'c'), ('1', '3')]

/-- A device present on the Linux side. -/
def winDevA : WinDevice := { info := winInfoEx, adapter_mac := adapterMacEx }

/-- A device absent from the Linux side. -/
def winDevB : WinDevice :=
  { info := { winInfoEx with address := "hex(b):01,02,03,04,05,06,00,00".toList },
    adapter_mac := adapterMacEx }

/-- The record directory of `winDevA`. -/
def pathAEx : Str := "/var/lib/bluetooth/C0:FB:F9:60:1C:13/C8:29:0A:11:F4:C1".toList

/-- The record directory of `winDevB`. -/
def pathBEx : Str := "/var/lib/bluetooth/C0:FB:F9:60:1C:13/06:05:04:03:02:01".toList

/-- A filesystem in which only `winDevA`'s record directory exists. -/
def fsExistsEx : Str → Bool := fun p => decide (p = pathAEx)

/-- A reader returning the empty record for any path. -/
def readInfoEx : Str → Option LinuxInfo := fun _ => some infoEmptyEx

/-! ## Helper lemmas -/

/-- `mapM` over `Option` succeeds pointwise. -/
theorem mapM_option_eq_some_map {α β : Type} (f : α → Option β) (g : α → β)
    (l : List α) (h : ∀ a ∈ l, f a = some (g a)) :
    l.mapM f = some (l.map g) := by
  induction l with
  | nil => rfl
  | cons a t ih =>
      have ha : f a = some (g a) := h a (List.mem_cons_self a t)
      have ht : t.mapM f = some (t.map g) := ih fun x hx => h x (List.mem_cons_of_mem a hx)
      rw [List.mapM_cons, ha, ht]; rfl

/-- `mapM` over `Option` fails as soon as any element fails. -/
theorem mapM_option_eq_none {α β : Type} (f : α → Option β) (l : List α)
    (a : α) (ha : a ∈ l) (hf : f a = none) :
    l.mapM f = none := by
  induction l with
  | nil => cases ha
  | cons b t ih =>
      rcases List.mem_cons.mp ha with h | h
      · subst h; rw [List.mapM_cons, hf]; rfl
      · cases hb : f b with
        | none => rw [List.mapM_cons, hb]; rfl
        | some v => rw [List.mapM_cons, hb, ih h]; rfl

/-- `Char.ofNat` of a small scalar value has that value back as `toNat`. -/
theorem charToNat_ofNat {n : Nat} (h : n < 55296) : (Char.ofNat n).toNat = n := by
  have hv : n.isValidChar := Or.inl h
  simp only [Char.ofNat, dif_pos hv]
  rfl

/-- A successful hex digit value is below 16. -/
theorem hexDigitVal_lt {c : Char} {v : Nat} (h : hexDigitVal c = some v) : v < 16 := by
  unfold hexDigitVal at h
  split at h <;> rename_i h1
  · injection h with h'; omega
  · split at h <;> rename_i h2
    · injection h with h'; omega
    · split at h <;> rename_i h3
      · injection h with h'; omega
      · cases h

/-- Two characters with different scalar values are different. -/
theorem char_ne_of_toNat_ne {c d : Char} (h : c.toNat ≠ d.toNat) : c ≠ d :=
  fun he => h (he ▸ rfl)

/-- A hex digit character is not a comma. -/
theorem hexDigitVal_ne_comma {c : Char} {v : Nat} (h : hexDigitVal c = some v) :
    c ≠ ',' := by
  apply char_ne_of_toNat_ne
  have h44 : (',' : Char).toNat = 44 := by decide
  rw [h44]
  unfold hexDigitVal at h
  split at h <;> rename_i h1
  · omega
  · split at h <;> rename_i h2
    · omega
    · split at h <;> rename_i h3
      · omega
      · cases h

/-- Uppercasing a hex digit character does not produce a comma. -/
theorem toUpper_hexDigit_ne_comma {c : Char} {v : Nat} (h : hexDigitVal c = some v) :
    Char.toUpper c ≠ ',' := by
  apply char_ne_of_toNat_ne
  have h44 : (',' : Char).toNat = 44 := by decide
  rw [h44]
  unfold hexDigitVal at h
  simp only [Char.toUpper]
  split <;> rename_i hr
  · rw [charToNat_ofNat (by omega)]
    omega
  · split at h <;> rename_i h1
    · omega
    · split at h <;> rename_i h2
      · omega
      · split at h <;> rename_i h3
        · omega
        · cases h

/-- Uppercasing the canonical lowercase rendering of a hex digit's value
gives the uppercased digit itself. -/
theorem toUpper_lowerHexDigitChar {c : Char} {v : Nat} (h : hexDigitVal c = some v) :
    Char.toUpper (lowerHexDigitChar v) = Char.toUpper c := by
  unfold hexDigitVal at h
  split at h <;> rename_i h1
  · -- decimal digit: the rendering is the character itself
    injection h with h'
    have hc : lowerHexDigitChar v = c := by
      unfold lowerHexDigitChar
      rw [if_pos (by omega)]
      have h48 : 48 + v = c.toNat := by omega
      rw [h48, Char.ofNat_toNat]
    rw [hc]
  · split at h <;> rename_i h2
    · -- lowercase letter a-f: the rendering is the character itself
      injection h with h'
      have hc : lowerHexDigitChar v = c := by
        unfold lowerHexDigitChar
        rw [if_neg (by omega)]
        have h87 : 87 + v = c.toNat := by omega
        rw [h87, Char.ofNat_toNat]
      rw [hc]
    · split at h <;> rename_i h3
      · -- uppercase letter A-F: the rendering is the lowercase twin
        injection h with h'
        have hl : lowerHexDigitChar v = Char.ofNat (c.toNat + 32) := by
          unfold lowerHexDigitChar
          rw [if_neg (by omega)]
          have h87 : 87 + v = c.toNat + 32 := by omega
          rw [h87]
        rw [hl]
        have ht : (Char.ofNat (c.toNat + 32)).toNat = c.toNat + 32 :=
          charToNat_ofNat (by omega)
        simp only [Char.toUpper]
        rw [ht]
        rw [if_pos (by omega), if_neg (by omega)]
        have h32 : c.toNat + 32 - 32 = c.toNat := by omega
        rw [h32, Char.ofNat_toNat]
      · cases h

/-- Parsing a two-hex-digit chunk by `u8::from_str_radix(_, 16)` yields the
pair's byte value. -/
theorem fromStrRadix_pair {p : Char × Char} (h : isHexPair p) :
    fromStrRadix 16 256 (pairChunk p) = some (hexPairVal p) := by
  obtain ⟨h1, h2⟩ := h
  obtain ⟨v1, hv1⟩ := Option.isSome_iff_exists.mp h1
  obtain ⟨v2, hv2⟩ := Option.isSome_iff_exists.mp h2
  have hl1 := hexDigitVal_lt hv1
  have hl2 := hexDigitVal_lt hv2
  have hd1 : digitVal 16 p.1 = some v1 := by
    unfold digitVal; rw [hv1]; simp [hl1]
  have hd2 : digitVal 16 p.2 = some v2 := by
    unfold digitVal; rw [hv2]; simp [hl2]
  have hmap : (pairChunk p).mapM (digitVal 16) = some [v1, v2] := by
    show ([p.1, p.2] : List Char).mapM (digitVal 16) = some [v1, v2]
    rw [List.mapM_cons, hd1, List.mapM_cons, hd2, List.mapM_nil]
    rfl
  unfold fromStrRadix
  rw [if_neg (by simp [pairChunk])]
  rw [hmap, Option.some_bind]
  simp only [List.foldl_cons, List.foldl_nil]
  rw [if_pos (by omega)]
  unfold hexPairVal
  rw [hv1, hv2]
  simp only [Option.getD_some]
  congr 1
  omega

/-- Encoding the byte value of a digit pair with `{:02x}` and uppercasing
recovers the uppercased pair. -/
theorem map_toUpper_formatHex02x {p : Char × Char} (h : isHexPair p) :
    (formatHex02x (hexPairVal p)).map Char.toUpper =
      [Char.toUpper p.1, Char.toUpper p.2] := by
  obtain ⟨h1, h2⟩ := h
  obtain ⟨v1, hv1⟩ := Option.isSome_iff_exists.mp h1
  obtain ⟨v2, hv2⟩ := Option.isSome_iff_exists.mp h2
  have hl1 := hexDigitVal_lt hv1
  have hl2 := hexDigitVal_lt hv2
  have hval : hexPairVal p = 16 * v1 + v2 := by
    unfold hexPairVal; rw [hv1, hv2]; rfl
  have hdiv : (16 * v1 + v2) / 16 % 16 = v1 := by
    rw [Nat.mul_add_div (by omega), Nat.div_eq_of_lt hl2, Nat.add_zero,
      Nat.mod_eq_of_lt hl1]
  have hmod : (16 * v1 + v2) % 16 = v2 := by
    rw [Nat.mul_add_mod, Nat.mod_eq_of_lt hl2]
  unfold formatHex02x
  rw [hval, hdiv, hmod]
  simp only [List.map_cons, List.map_nil]
  rw [toUpper_lowerHexDigitChar hv1, toUpper_lowerHexDigitChar hv2]

/-- `mapM` over a mapped list, all elements succeeding. -/
theorem mapM_option_over_map {α β γ : Type} (f : β → Option γ) (h : α → β)
    (g : α → γ) (l : List α) (hfg : ∀ a ∈ l, f (h a) = some (g a)) :
    (l.map h).mapM f = some (l.map g) := by
  induction l with
  | nil => rfl
  | cons a t ih =>
      have ha := hfg a (List.mem_cons_self a t)
      have ht := ih fun x hx => hfg x (List.mem_cons_of_mem a hx)
      simp only [List.map_cons]
      rw [List.mapM_cons, ha, ht]
      rfl

/-- Splitting the flattening of two-character chunks back into chunks. -/
theorem chunksExact2_flatten (l : List Str) (h : ∀ p ∈ l, p.length = 2) :
    chunksExact2 l.flatten = l := by
  induction l with
  | nil => rfl
  | cons p t ih =>
      have hp := h p (List.mem_cons_self p t)
      match p, hp with
      | [a, b], _ =>
        simp only [List.flatten_cons, List.cons_append, List.nil_append]
        show [a, b] :: chunksExact2 t.flatten = [a, b] :: t
        rw [ih fun x hx => h x (List.mem_cons_of_mem _ hx)]

/-- `intercalate` with a single-element separator, two-cons case. -/
theorem intercalate_cons_cons {α : Type} (s : α) (a b : List α) (t : List (List α)) :
    List.intercalate [s] (a :: b :: t) = a ++ s :: List.intercalate [s] (b :: t) := by
  simp [List.intercalate, List.intersperse_cons₂]

/-- No comma occurs inside a hex digit chunk. -/
theorem comma_not_mem_pairChunk {p : Char × Char} (h : isHexPair p) :
    ',' ∉ pairChunk p := by
  obtain ⟨h1, h2⟩ := h
  obtain ⟨v1, hv1⟩ := Option.isSome_iff_exists.mp h1
  obtain ⟨v2, hv2⟩ := Option.isSome_iff_exists.mp h2
  intro hm
  rcases List.mem_cons.mp hm with he | hm
  · exact hexDigitVal_ne_comma hv1 he.symm
  · rcases List.mem_cons.mp hm with he | hm
    · exact hexDigitVal_ne_comma hv2 he.symm
    · cases hm

/-- Decoding a well-formed `hex:` string of 16 digit pairs yields the 16
pair values, in order. -/
theorem hex_to_bytes_winHexKeyStr (pairs : List (Char × Char))
    (hlen : pairs.length = 16) (hh : ∀ p ∈ pairs, isHexPair p) :
    hex_to_bytes (winHexKeyStr pairs) = some (pairs.map hexPairVal) := by
  have hne : pairs.map pairChunk ≠ [] := by
    intro he
    rw [List.map_eq_nil_iff] at he
    rw [he] at hlen
    cases hlen
  have hsplit : ((winHexKeyStr pairs).drop 4).splitOn ',' = pairs.map pairChunk := by
    show (List.intercalate [','] (pairs.map pairChunk)).splitOn ',' = pairs.map pairChunk
    exact List.splitOn_intercalate (pairs.map pairChunk) ','
      (by
        intro l hl
        obtain ⟨p, hp, rfl⟩ := List.mem_map.mp hl
        exact comma_not_mem_pairChunk (hh p hp)) hne
  unfold hex_to_bytes
  rw [if_neg (by simp [winHexKeyStr])]
  rw [hsplit]
  rw [mapM_option_over_map (fromStrRadix 16 256) pairChunk hexPairVal pairs
    (fun p hp => fromStrRadix_pair (hh p hp))]
  rw [Option.some_bind]
  rw [if_pos (by simp [hlen])]

/-- Uppercasing then removing commas from the comma-separated digit pairs
leaves exactly the uppercased pairs, concatenated. -/
theorem filter_upper_intercalate (pairs : List (Char × Char))
    (hh : ∀ p ∈ pairs, isHexPair p) :
    ((List.intercalate [','] (pairs.map pairChunk)).map Char.toUpper).filter
        (fun c => c ≠ ',') =
      (pairs.map fun p => [Char.toUpper p.1, Char.toUpper p.2]).flatten := by
  induction pairs with
  | nil => rfl
  | cons p t ih =>
      obtain ⟨h1, h2⟩ := hh p (List.mem_cons_self p t)
      obtain ⟨v1, hv1⟩ := Option.isSome_iff_exists.mp h1
      obtain ⟨v2, hv2⟩ := Option.isSome_iff_exists.mp h2
      have hne1 := toUpper_hexDigit_ne_comma hv1
      have hne2 := toUpper_hexDigit_ne_comma hv2
      cases t with
      | nil =>
          simp [List.intercalate, pairChunk, List.filter_cons, hne1, hne2]
      | cons q t' =>
          have iht := ih fun x hx => hh x (List.mem_cons_of_mem p hx)
          simp only [List.map_cons] at iht ⊢
          rw [intercalate_cons_cons]
          simp only [List.map_append, List.map_cons, List.filter_append,
            List.filter_cons, List.flatten_cons]
          have hcomma : Char.toUpper ',' = ',' := by decide
          simp [pairChunk, hne1, hne2, hcomma]
          simpa [pairChunk] using iht

/-- The legacy direct string transform on a well-formed `hex:` string:
drop the prefix, uppercase, strip commas. -/
theorem winhex_format_winHexKeyStr (pairs : List (Char × Char))
    (hh : ∀ p ∈ pairs, isHexPair p) :
    winhex_get_linux_format (winHexKeyStr pairs) =
      some ((pairs.map fun p => [Char.toUpper p.1, Char.toUpper p.2]).flatten) := by
  unfold winhex_get_linux_format
  rw [if_neg (by simp [winHexKeyStr])]
  have hdrop : (winHexKeyStr pairs).drop 4 =
      List.intercalate [','] (pairs.map pairChunk) := rfl
  rw [hdrop, filter_upper_intercalate pairs hh]

/-- Encoding the pair values with `bytes_to_linux_hex_key` gives the
uppercased digit pairs, concatenated. -/
theorem key_encode_pairs (pairs : List (Char × Char))
    (hh : ∀ p ∈ pairs, isHexPair p) :
    bytes_to_linux_hex_key (pairs.map hexPairVal) =
      (pairs.map fun p => [Char.toUpper p.1, Char.toUpper p.2]).flatten := by
  unfold bytes_to_linux_hex_key
  rw [List.map_map]
  congr 1
  exact List.map_congr_left fun p hp => map_toUpper_formatHex02x (hh p hp)

/-- Decoding the flattening of digit pairs chunk by chunk (the compact
legacy address form) yields the pair values, in order. -/
theorem key_address_pairs (pairs : List (Char × Char))
    (hlen : pairs.length = 6) (hh : ∀ p ∈ pairs, isHexPair p) :
    key_address_to_bytes (pairs.map pairChunk).flatten = some (pairs.map hexPairVal) := by
  unfold key_address_to_bytes
  rw [chunksExact2_flatten (pairs.map pairChunk) (by
    intro p hp
    obtain ⟨q, hq, rfl⟩ := List.mem_map.mp hp
    rfl)]
  rw [mapM_option_over_map (fromStrRadix 16 256) pairChunk hexPairVal pairs
    (fun p hp => fromStrRadix_pair (hh p hp))]
  rw [Option.some_bind]
  rw [if_pos (by simp [hlen])]

/-- `digitVal 10` succeeds exactly on decimal digits. -/
theorem digitVal10_of_isDecDigit {c : Char} (h : isDecDigit c) :
    digitVal 10 c = some (c.toNat - 48) := by
  obtain ⟨h1, h2⟩ := h
  unfold digitVal hexDigitVal
  rw [if_pos ⟨h1, h2⟩]
  show (if c.toNat - 48 < 10 then some (c.toNat - 48) else none) = some (c.toNat - 48)
  rw [if_pos (by omega)]

/-- The decimal fold is bounded by a power of ten. -/
theorem foldl_decDigits_lt (s : Str) (a : Nat) (h : ∀ c ∈ s, isDecDigit c) :
    s.foldl (fun a c => a * 10 + (c.toNat - 48)) a < (a + 1) * 10 ^ s.length := by
  induction s generalizing a with
  | nil => simp [Nat.lt_succ_self a]
  | cons c t ih =>
      obtain ⟨h1, h2⟩ := h c (List.mem_cons_self c t)
      have ht := ih (a * 10 + (c.toNat - 48)) fun x hx => h x (List.mem_cons_of_mem c hx)
      simp only [List.foldl_cons, List.length_cons]
      calc List.foldl (fun a c => a * 10 + (c.toNat - 48)) (a * 10 + (c.toNat - 48)) t
          < (a * 10 + (c.toNat - 48) + 1) * 10 ^ t.length := ht
        _ ≤ ((a + 1) * 10) * 10 ^ t.length := by
            have : a * 10 + (c.toNat - 48) + 1 ≤ (a + 1) * 10 := by omega
            exact Nat.mul_le_mul_right _ this
        _ = (a + 1) * 10 ^ (t.length + 1) := by ring

/-- `u32::from_str_radix(s, 10)` succeeds on a short nonempty all-decimal
string, with the decimal value. -/
theorem fromStrRadix10_digits (s : Str) (hne : s ≠ []) (hlen : s.length ≤ 9)
    (h : ∀ c ∈ s, isDecDigit c) :
    fromStrRadix 10 4294967296 s = some (decDigitsVal s) := by
  unfold fromStrRadix
  rw [if_neg (by simp [hne])]
  rw [mapM_option_eq_some_map (digitVal 10) (fun c => c.toNat - 48) s
    (fun c hc => digitVal10_of_isDecDigit (h c hc))]
  rw [Option.some_bind]
  simp only [List.foldl_map]
  have hbound : decDigitsVal s < 4294967296 := by
    have h1 := foldl_decDigits_lt s 0 h
    have h2 : 10 ^ s.length ≤ 10 ^ 9 := Nat.pow_le_pow_right (by omega) hlen
    unfold decDigitsVal
    calc s.foldl (fun a c => a * 10 + (c.toNat - 48)) 0
        < (0 + 1) * 10 ^ s.length := h1
      _ = 10 ^ s.length := by ring
      _ ≤ 10 ^ 9 := h2
      _ < 4294967296 := by norm_num
  unfold decDigitsVal at hbound ⊢
  rw [if_pos hbound]

/-- Functional characterization of `linux_build`: every field of the
result as a function of the inputs. -/
theorem linux_build_eq (device : LinuxInfo) (ltk : List Nat)
    (e_rand e_div irk csrk : Option (List Nat)) :
    linux_build device ltk e_rand e_div irk csrk =
      { general := device.general,
        device_id := device.device_id,
        connection_parameters := device.connection_parameters,
        link_key := match device.link_key with
          | some lk => some { key := bytes_to_linux_hex_key ltk, ty := lk.ty,
                              pin_length := lk.pin_length }
          | none => none,
        identity_resolving_key := match device.identity_resolving_key, irk with
          | some _, some k => some { key := bytes_to_linux_hex_key k }
          | s, _ => s,
        slave_long_term_key := match device.slave_long_term_key with
          | some sec => some { key := bytes_to_linux_hex_key ltk,
                               authenticated := sec.authenticated,
                               enc_size := sec.enc_size, e_div := sec.e_div,
                               rand := sec.rand }
          | none => none,
        peripheral_long_term_key := match device.peripheral_long_term_key with
          | some sec => some { key := bytes_to_linux_hex_key ltk,
                               authenticated := sec.authenticated,
                               enc_size := sec.enc_size, e_div := sec.e_div,
                               rand := sec.rand }
          | none => none,
        local_signature_key := match device.local_signature_key, csrk with
          | some _, some k => some { key := bytes_to_linux_hex_key k }
          | s, _ => s,
        long_term_key := match device.long_term_key, e_rand, e_div with
          | some sec, some er, some ed =>
              some { key := bytes_to_linux_hex_key ltk,
                     authenticated := sec.authenticated,
                     enc_size := sec.enc_size,
                     e_div := bytes_to_linux_hex_key ed,
                     rand := bytes_to_linux_hex_key er }
          | s, _, _ => s } := by
  obtain ⟨g, di, cp, lk, irkS, sltk, pltk, lsk, ltkS⟩ := device
  unfold linux_build
  cases lk <;> cases irkS <;> cases irk <;> cases pltk <;> cases sltk <;>
    cases lsk <;> cases csrk <;> cases ltkS <;> cases e_rand <;> cases e_div <;> rfl

/-- Every write produced through `update_step` targets the `info` file of
an existing record directory. -/
theorem update_step_writes (fsExists : Str → Bool) (readInfo : Str → Option LinuxInfo)
    (acc acc' : List (Str × LinuxInfo)) (d : WinDevice)
    (hstep : update_step fsExists readInfo acc d = some acc')
    (hacc : ∀ w ∈ acc, ∃ p, fsExists p = true ∧ w.1 = pathJoin p "info".toList) :
    ∀ w ∈ acc', ∃ p, fsExists p = true ∧ w.1 = pathJoin p "info".toList := by
  unfold update_step at hstep
  cases hpath : device_path d with
  | none => rw [hpath] at hstep; cases hstep
  | some p =>
      rw [hpath] at hstep
      simp only [Option.bind_eq_bind, Option.some_bind] at hstep
      by_cases hex : fsExists p = true
      · rw [if_pos hex] at hstep
        cases hread : readInfo (pathJoin p "info".toList) with
        | none => rw [hread] at hstep; cases hstep
        | some info =>
            rw [hread] at hstep
            simp only [Option.bind_eq_bind, Option.some_bind] at hstep
            cases hupd : update_linux_info info d.info with
            | none => rw [hupd] at hstep; cases hstep
            | some out =>
                rw [hupd] at hstep
                simp only [Option.bind_eq_bind, Option.some_bind,
                  Option.pure_def] at hstep
                injection hstep with he
                subst he
                intro w hw
                rcases List.mem_append.mp hw with hw | hw
                · exact hacc w hw
                · rcases List.mem_cons.mp hw with rfl | hw
                  · exact ⟨p, hex, rfl⟩
                  · cases hw
      · rw [if_neg hex] at hstep
        simp only [Option.pure_def] at hstep
        injection hstep with he
        subst he
        exact hacc

/-- Every write produced by the fold of `update_step` targets the `info`
file of an existing record directory. -/
theorem update_fold_writes (fsExists : Str → Bool) (readInfo : Str → Option LinuxInfo)
    (devs : List WinDevice) :
    ∀ (acc ws : List (Str × LinuxInfo)),
      devs.foldlM (update_step fsExists readInfo) acc = some ws →
      (∀ w ∈ acc, ∃ p, fsExists p = true ∧ w.1 = pathJoin p "info".toList) →
      ∀ w ∈ ws, ∃ p, fsExists p = true ∧ w.1 = pathJoin p "info".toList := by
  induction devs with
  | nil =>
      intro acc ws hrun hacc
      rw [List.foldlM_nil] at hrun
      injection hrun with he
      subst he
      exact hacc
  | cons d t ih =>
      intro acc ws hrun hacc
      rw [List.foldlM_cons] at hrun
      cases hstep : update_step fsExists readInfo acc d with
      | none => rw [hstep] at hrun; cases hrun
      | some acc' =>
          rw [hstep] at hrun
          simp only [Option.bind_eq_bind, Option.some_bind] at hrun
          exact ih acc' ws hrun
            (update_step_writes fsExists readInfo acc acc' d hstep hacc)

/-! ## Claims -/

/-- Claim C1: merging a record supplying both encrypted_diversifier and
encrypted_rand into a Linux record with a present LongTermKey section is
claimed to replace only Key, EDiv and Rand and keep Authenticated and
EncSize byte-identical.  `LongTermKey::recreate` instead assigns the old
`Authenticated` value to `EncSize`: on a section with `Authenticated=2`,
`EncSize=16` the merged section has `EncSize=2`. -/
theorem c1_longtermkey_recreate_modifies_encsize :
    ltkSecEx.recreate winLtkStrEx winERandStrEx winEDivStrEx = some
      { key := "C290193B1EBEC7D018C64FE967AD6BD5".toList,
        authenticated := "2".toList, enc_size := "2".toList,
        e_div := "00000000".toList, rand := "0".toList } ∧
    ltkSecEx.authenticated = "2".toList ∧ ltkSecEx.enc_size = "16".toList := by
  decide

/-- Claim C2 (amended): the dword decode is total and deterministic over
`dword:` followed by exactly 8 decimal digits, returning the 4 bytes of
the decimal value in the host's (little-endian) native byte order — but
not over all 8-hex-digit payloads, since the payload is parsed with
radix 10. -/
theorem c2_dword_decode_total_on_decimal_digits (s : Str) (hlen : s.length = 8)
    (hdig : ∀ c ∈ s, isDecDigit c) :
    dword_to_bytes ("dword:".toList ++ s) = some (u32_to_ne_bytes (decDigitsVal s)) := by
  have hpre : ("dword:".toList ++ s) = 'd' :: 'w' :: 'o' :: 'r' :: 'd' :: ':' :: s := rfl
  unfold dword_to_bytes
  rw [hpre]
  rw [if_neg (by simp)]
  show (fromStrRadix 10 4294967296 s).map u32_to_ne_bytes = _
  rw [fromStrRadix10_digits s (by intro h; rw [h] at hlen; cases hlen) (by omega) hdig]
  rfl

/-- Claim C2, counterexample: the payload `0000000a` consists of 8 hex
digits, yet the decode fails (the digits are parsed as decimal). -/
theorem c2_dword_hex_digits_counterexample :
    dword_to_bytes "dword:0000000a".toList = none := by decide

/-- Claim C2, witness for the amended statement at the payload
`00000123`. -/
theorem c2_dword_witness :
    dword_to_bytes ("dword:".toList ++ "00000123".toList)
        = some (u32_to_ne_bytes (decDigitsVal "00000123".toList)) ∧
      u32_to_ne_bytes (decDigitsVal "00000123".toList) = [123, 0, 0, 0] :=
  ⟨c2_dword_decode_total_on_decimal_digits "00000123".toList (by decide) (by decide),
   by decide⟩

/-- Claim C3 (amended): a malformed encoded field value makes that
device's record construction fail, and — the decode panics being fatal —
the whole assembly run aborts with it, rather than skipping just that
device. -/
theorem c3_malformed_field_aborts_run (entries : List (Str × BtDevice51))
    (pe : Str × BtDevice51) (hmem : pe ∈ entries)
    (hfail : win_build51 pe.1 pe.2 = none) :
    buildAll entries = none := by
  unfold buildAll
  exact mapM_option_eq_none _ entries pe hmem hfail

/-- Claim C3, counterexample: with one well-formed entry and one entry
whose LTK has a malformed hex digit, the run produces nothing at all —
the sibling device is not processed, contradicting the claimed
skip-and-continue behavior. -/
theorem c3_skip_counterexample :
    buildAll [(adapterMacEx, goodEntry51), (adapterMacEx, badEntry51)] = none ∧
    (win_build51 adapterMacEx goodEntry51).isSome = true := by decide

/-- Claim C3, witness for the amended statement at the concrete pair of
entries. -/
theorem c3_abort_witness :
    buildAll [(adapterMacEx, goodEntry51), (adapterMacEx, badEntry51)] = none :=
  c3_malformed_field_aborts_run
    [(adapterMacEx, goodEntry51), (adapterMacEx, badEntry51)]
    (adapterMacEx, badEntry51) (by decide) (by decide)

/-- Claim C4: decoding `hex(b):c1,f4,11,0a,29,c8,00,00` yields the six
bytes `[c8,29,0a,11,f4,c1]` (first six payload bytes reversed, two
trailing zero bytes dropped), and encoding them to the Linux path form
yields `C8:29:0A:11:F4:C1`. -/
theorem c4_address_decode_encode :
    win_address_to_bytes "hex(b):c1,f4,11,0a,29,c8,00,00".toList
        = some [0xc8, 0x29, 0x0a, 0x11, 0xf4, 0xc1] ∧
      bytes_to_linux_hex_address [0xc8, 0x29, 0x0a, 0x11, 0xf4, 0xc1]
        = "C8:29:0A:11:F4:C1".toList := by decide

/-- Claim C5: for every well-formed 16-byte key in the Windows `hex:`
comma-separated form, decoding succeeds and encoding the canonical bytes
to the Linux key form renders each byte as exactly its two uppercased hex
digits, concatenated with no separators. -/
theorem c5_hex_key_decode_encode (pairs : List (Char × Char))
    (hlen : pairs.length = 16) (hh : ∀ p ∈ pairs, isHexPair p) :
    ∃ bs, hex_to_bytes (winHexKeyStr pairs) = some bs ∧
      bytes_to_linux_hex_key bs =
        (pairs.map fun p => [Char.toUpper p.1, Char.toUpper p.2]).flatten :=
  ⟨pairs.map hexPairVal, hex_to_bytes_winHexKeyStr pairs hlen hh,
   key_encode_pairs pairs hh⟩

/-- Claim C5, witness at the concrete LTK example, whose encoding is
`C290193B1EBEC7D018C64FE967AD6BD5`. -/
theorem c5_hex_key_witness :
    (∃ bs, hex_to_bytes (winHexKeyStr c5PairsEx) = some bs ∧
      bytes_to_linux_hex_key bs =
        (c5PairsEx.map fun p => [Char.toUpper p.1, Char.toUpper p.2]).flatten) ∧
    winHexKeyStr c5PairsEx = "hex:c2,90,19,3b,1e,be,c7,d0,18,c6,4f,e9,67,ad,6b,d5".toList ∧
    (c5PairsEx.map fun p => [Char.toUpper p.1, Char.toUpper p.2]).flatten
      = "C290193B1EBEC7D018C64FE967AD6BD5".toList :=
  ⟨c5_hex_key_decode_encode c5PairsEx (by decide) (by decide), by decide, by decide⟩

/-- Claim C6: the compact 12-hex-character legacy address decodes its
consecutive 2-character chunks as hex bytes in the given order, with no
reversal. -/
theorem c6_compact_address_decode (pairs : List (Char × Char))
    (hlen : pairs.length = 6) (hh : ∀ p ∈ pairs, isHexPair p) :
    key_address_to_bytes (pairs.map pairChunk).flatten = some (pairs.map hexPairVal) :=
  key_address_pairs pairs hlen hh

/-- Claim C6, witness at `c0fbf9601c13`, which decodes to
`[c0,fb,f9,60,1c,13]` unchanged. -/
theorem c6_compact_address_witness :
    key_address_to_bytes (c6PairsEx.map pairChunk).flatten
        = some (c6PairsEx.map hexPairVal) ∧
      (c6PairsEx.map pairChunk).flatten = "c0fbf9601c13".toList ∧
      c6PairsEx.map hexPairVal = [0xc0, 0xfb, 0xf9, 0x60, 0x1c, 0x13] :=
  ⟨c6_compact_address_decode c6PairsEx (by decide) (by decide), by decide, by decide⟩

/-- Claim C7: in the byte-based merge, the IdentityResolvingKey section is
replaced only if the record's identity_resolving_key is present, the
LocalSignatureKey section only if its connection_signature_resolving_key
is present, and the LongTermKey section only if both encrypted_diversifier
and encrypted_rand are present; otherwise the section is left untouched. -/
theorem c7_selective_section_replacement (device : LinuxInfo) (ltk : List Nat)
    (e_rand e_div irk csrk : Option (List Nat)) :
    (linux_build device ltk e_rand e_div irk csrk).identity_resolving_key =
      (match device.identity_resolving_key, irk with
        | some _, some k => some { key := bytes_to_linux_hex_key k }
        | s, _ => s) ∧
    (linux_build device ltk e_rand e_div irk csrk).local_signature_key =
      (match device.local_signature_key, csrk with
        | some _, some k => some { key := bytes_to_linux_hex_key k }
        | s, _ => s) ∧
    (linux_build device ltk e_rand e_div irk csrk).long_term_key =
      (match device.long_term_key, e_rand, e_div with
        | some sec, some er, some ed =>
            some { key := bytes_to_linux_hex_key ltk,
                   authenticated := sec.authenticated,
                   enc_size := sec.enc_size,
                   e_div := bytes_to_linux_hex_key ed,
                   rand := bytes_to_linux_hex_key er }
        | s, _, _ => s) := by
  rw [linux_build_eq]
  exact ⟨rfl, rfl, rfl⟩

/-- Claim C8: the merge is claimed never to create sections and never to
modify fields outside the listed replacement rules.  The string-based
merge of `update_linux_devices` violates the second part: on a record
whose LongTermKey section has `Authenticated=2`, `EncSize=16`, the merge
writes `EncSize=2` although EncSize is outside the replacement rules
(section presence itself is preserved). -/
theorem c8_update_modifies_unlisted_encsize :
    update_linux_info linuxInfoEx winInfoEx = some
      { general := none, device_id := none, connection_parameters := none,
        link_key := none, identity_resolving_key := none,
        slave_long_term_key := none, peripheral_long_term_key := none,
        local_signature_key := none,
        long_term_key := some
          { key := "C290193B1EBEC7D018C64FE967AD6BD5".toList,
            authenticated := "2".toList, enc_size := "2".toList,
            e_div := "00000000".toList, rand := "0".toList } } ∧
    linuxInfoEx.long_term_key = some ltkSecEx ∧ ltkSecEx.enc_size = "16".toList := by
  decide

/-- Claim C9: a device whose Linux record directory does not exist is
skipped — the run performs no write for it. -/
theorem c9_missing_record_no_write (fsExists : Str → Bool)
    (readInfo : Str → Option LinuxInfo) (devs : List WinDevice)
    (ws : List (Str × LinuxInfo)) (d : WinDevice) (p : Str)
    (hrun : update_linux_devices fsExists readInfo devs = some ws)
    (_hd : d ∈ devs) (_hp : device_path d = some p) (hmiss : fsExists p = false) :
    ∀ w ∈ ws, w.1 ≠ pathJoin p "info".toList := by
  intro w hw heq
  obtain ⟨p', hex, he⟩ := update_fold_writes fsExists readInfo devs [] ws hrun
    (by intro w hw; cases hw) w hw
  have he2 : pathJoin p "info".toList = pathJoin p' "info".toList := by
    rw [← heq, he]
  have hpp : p = p' := List.append_inj_left' (show
    p ++ ('/' :: "info".toList) = p' ++ ('/' :: "info".toList) from he2) rfl
  rw [hpp, hex] at hmiss
  cases hmiss

/-- Claim C9, witness: of two extracted devices, only the one whose
record directory exists produces a write; the other's `info` path is
written nowhere. -/
theorem c9_missing_record_witness :
    update_linux_devices fsExistsEx readInfoEx [winDevA, winDevB] =
        some [(pathJoin pathAEx "info".toList, infoEmptyEx)] ∧
      ∀ w ∈ [(pathJoin pathAEx "info".toList, infoEmptyEx)],
        w.1 ≠ pathJoin pathBEx "info".toList :=
  ⟨by decide,
   c9_missing_record_no_write fsExistsEx readInfoEx [winDevA, winDevB]
     [(pathJoin pathAEx "info".toList, infoEmptyEx)] winDevB pathBEx
     (by decide) (by decide) (by decide) (by decide)⟩

/-- Claim C10: the legacy direct string transform of a well-formed 16-byte
`hex:` LTK string (drop the 4-character prefix, uppercase, remove commas)
produces exactly the same Linux key string as decoding to canonical bytes
and encoding each byte as two uppercase hex digits. -/
theorem c10_legacy_string_codec_equivalent (pairs : List (Char × Char))
    (hlen : pairs.length = 16) (hh : ∀ p ∈ pairs, isHexPair p) :
    ∃ bs, hex_to_bytes (winHexKeyStr pairs) = some bs ∧
      winhex_get_linux_format (winHexKeyStr pairs) =
        some (bytes_to_linux_hex_key bs) :=
  ⟨pairs.map hexPairVal, hex_to_bytes_winHexKeyStr pairs hlen hh, by
    rw [winhex_format_winHexKeyStr pairs hh, key_encode_pairs pairs hh]⟩

/-- Claim C10, witness at the concrete LTK example: both paths produce
`C290193B1EBEC7D018C64FE967AD6BD5`. -/
theorem c10_legacy_string_witness :
    (∃ bs, hex_to_bytes (winHexKeyStr c5PairsEx) = some bs ∧
      winhex_get_linux_format (winHexKeyStr c5PairsEx) =
        some (bytes_to_linux_hex_key bs)) ∧
    winhex_get_linux_format (winHexKeyStr c5PairsEx) =
      some "C290193B1EBEC7D018C64FE967AD6BD5".toList :=
  ⟨c10_legacy_string_codec_equivalent c5PairsEx (by decide) (by decide), by decide⟩

end BtDualBoot
